import Mathlib

/-!
Verification of the ARA (Autonomous Refactoring Agent) self-correction core.

This file is a shallow embedding of the loop-controller / state-machine core
of the repository:

* `src/ara/state/models.py`   — the record types (`FileStatus`, `ApprovalStatus`,
  `FileContext`, `ValidationResult`, `ReflectionNote`);
* `src/ara/state/schema.py`   — the `AgentState` bag and LangGraph reducer
  semantics (`validation_history` / `reflection_history` are concatenated,
  every other key is replaced);
* `src/ara/graph/router.py`   — `route_after_validation`, `check_cycle_detection`;
* `src/ara/graph/builder.py`  — `create_graph` wiring, `_success_handler`,
  `_escalate_handler`;
* `src/ara/nodes/validator.py`, `src/ara/nodes/reflector.py`,
  `src/ara/nodes/analyzer.py`, `src/ara/nodes/generator.py` — the node bodies;
* `src/ara/context/dependency_graph.py` — `build_dependency_graph`,
  `DependencyGraph.topological_sort` (Kahn), `get_refactoring_order`.

External collaborators (the CPython `ast` parser, `hashlib.md5`, the
language-model call, the LibCST / difflib candidate production, wall-clock
timers) are modelled as explicit parameters, since their internals are not
part of this repository.  Everything that the repository itself computes is
transcribed directly from the Python source.

Python-specific conventions preserved by the embedding:
* `list[-5:]` is `lastN 5`;
* truthiness of a string (`if not s`) is the test `s = ""` / `s = none`;
* dict insertion order is the order of the association list;
* `isinstance(v, ValidationResult)` filtering of the history list is the
  `HistEntry.result` / `HistEntry.foreign` split (`foreign` stands for any
  malformed or foreign object that may appear in the history).
-/

namespace ARA

/-- `FileStatus` from `src/ara/state/models.py`. -/
inductive FileStatus where
  | PENDING
  | IN_PROGRESS
  | COMPLETED
  | FAILED
  | SKIPPED
deriving DecidableEq, Repr

/-- The string values of the `ApprovalStatus` enum from
`src/ara/state/models.py`: `PENDING`, `APPROVED`, `REJECTED`. -/
def approvalStatusValues : List String := ["PENDING", "APPROVED", "REJECTED"]

/-- `FileContext` from `src/ara/state/models.py` (the per-file WorkItem).
The `last_updated` wall-clock field is omitted: it is set from the system
clock and read nowhere in the core. -/
structure FileContext where
  filepath : String
  original_content : String
  modified_content : Option String := none
  diff : Option String := none
  status : FileStatus := .PENDING
  error_message : Option String := none
deriving DecidableEq, Repr

/-- `ValidationResult` from `src/ara/state/models.py`.  The `timestamp`
wall-clock field is omitted (never read by the core). -/
structure ValidationResult where
  tool_name : String
  passed : Bool
  error_message : Option String := none
  failed_tests : List String := []
  execution_time_ms : Option Int := none
  exit_code : Option Int := none
  stdout : Option String := none
  stderr : Option String := none
deriving DecidableEq, Repr

/-- An entry of the `validation_history` list.  The routers filter the list
with `isinstance(v, ValidationResult)`; `foreign` models any malformed or
foreign object that may appear there instead of a real result record. -/
inductive HistEntry where
  | result (v : ValidationResult)
  | foreign
deriving DecidableEq, Repr

/-- `isinstance(v, ValidationResult)` on a history entry. -/
def HistEntry.isResult : HistEntry → Bool
  | .result _ => true
  | .foreign => false

/-- The `passed` flag of a real result entry (`false` for foreign entries;
only ever consulted under an `isResult` guard). -/
def HistEntry.resultPassed : HistEntry → Bool
  | .result v => v.passed
  | .foreign => false

/-- `ReflectionNote` from `src/ara/state/models.py` (timestamp omitted). -/
structure ReflectionNote where
  iteration : Int
  error_summary : String
  suggested_fix : String
  relevant_error_lines : List String := []
deriving DecidableEq, Repr

/-- `RefactoringTarget` from `src/ara/state/models.py`. -/
structure RefactoringTarget where
  filepath : String
  node_type : String
  node_name : String
  start_line : Int
  end_line : Int
  description : Option String := none
deriving DecidableEq, Repr

/-- `AgentState` from `src/ara/state/schema.py`.  Python dicts are modelled
as association lists in insertion order.  Field defaults are the defaults
used by `state.get(key, default)` in the nodes together with
`create_initial_state`. -/
structure AgentState where
  files : List (String × FileContext) := []
  dependency_edges : List (String × String) := []
  refactoring_targets : List RefactoringTarget := []
  refactoring_goal : String := ""
  current_file_path : Option String := none
  generated_code_snippet : Option String := none
  refactoring_summary : Option String := none
  validation_history : List HistEntry := []
  reflection_history : List ReflectionNote := []
  iteration_count : Int := 0
  max_iterations : Int := 3
  human_feedback : Option String := none
  approval_status : String := "PENDING"
  error_state : Option String := none
  file_queue : List String := []
  file_queue_index : Int := 0
  code_hashes : List String := []
deriving DecidableEq, Repr

/-- Python dict lookup on an association list (first matching key; keys of a
Python dict are unique). -/
def dictGet (l : List (String × α)) (k : String) : Option α :=
  (l.find? (fun p => p.1 = k)).map Prod.snd

/-- Python dict assignment `d[k] = v` for a key already present: replaces the
value in place, keeping insertion order. -/
def dictSet (l : List (String × α)) (k : String) (v : α) : List (String × α) :=
  l.map (fun p => if p.1 = k then (k, v) else p)

/-- Python `l[-n:]`. -/
def lastN (n : Nat) (l : List α) : List α := l.drop (l.length - n)

/-- Split a character list at every occurrence of the separator `c`
(Python `str.split(sep)` for a one-character separator: no collapsing of
adjacent separators). -/
def splitCharList (c : Char) : List Char → List (List Char)
  | [] => [[]]
  | x :: xs =>
      let rest := splitCharList c xs
      if x = c then [] :: rest
      else
        match rest with
        | [] => [[x]]
        | r :: rs => (x :: r) :: rs

/-- Python `s.split(sep)` for a one-character separator, on `String`.
(Defined over the character list so that it evaluates inside the kernel.) -/
def splitChar (c : Char) (s : String) : List String :=
  (splitCharList c s.toList).map String.mk

/-- Python `s.strip()`: remove leading and trailing whitespace. -/
def pyStrip (s : String) : String :=
  String.mk (((s.toList.dropWhile Char.isWhitespace).reverse.dropWhile
    Char.isWhitespace).reverse)

/-- Python `s.lower()`. -/
def pyLower (s : String) : String := String.mk (s.toList.map Char.toLower)

/-- Python `s[:n]` (by characters). -/
def strTake (s : String) (n : Nat) : String := String.mk (s.toList.take n)

/-- Python `s[n:]` (by characters). -/
def strDrop (s : String) (n : Nat) : String := String.mk (s.toList.drop n)

/-- The `[v for v in h if isinstance(v, ValidationResult)]` filter. -/
def realResults (l : List HistEntry) : List ValidationResult :=
  l.filterMap (fun e => match e with | .result v => some v | .foreign => none)

/-- `route_after_validation` from `src/ara/graph/router.py` (lines 15-68).
The nested early-return structure of the source collapses to one
conditional chain: the `"success"` return is taken exactly when the history
is non-empty, the `ValidationResult`-instances among its last 5 entries are
non-empty, and all of them passed; every other path falls through to the
retry-budget check. -/
def route_after_validation (s : AgentState) : String :=
  let recent_results := realResults (lastN 5 s.validation_history)
  if s.validation_history ≠ [] ∧ recent_results ≠ [] ∧
      recent_results.all (fun r => r.passed) then
    "success"
  else if s.iteration_count < s.max_iterations then
    "reflect"
  else
    "escalate"

/-- `check_cycle_detection` from `src/ara/graph/router.py` (lines 175-204).
`md5` is the external `hashlib.md5(...).hexdigest()` digest function, passed
as a parameter.  `state.get("generated_code_snippet", "")` with Python
string truthiness: an absent key behaves like the empty string. -/
def check_cycle_detection (md5 : String → String) (s : AgentState) : String :=
  let generated_code := s.generated_code_snippet.getD ""
  if generated_code = "" then
    "continue"
  else
    let code_hash := md5 generated_code
    if code_hash ∈ s.code_hashes then "cycle" else "continue"

/-- A partial state update returned by a graph node.  `none` means the key is
absent from the returned dict.  `validation_history` and `reflection_history`
carry LangGraph's `operator.add` reducer annotation in
`src/ara/state/schema.py`, so a node's entries are appended; every other key
replaces the stored value. -/
structure StateUpdate where
  files : Option (List (String × FileContext)) := none
  current_file_path : Option (Option String) := none
  generated_code_snippet : Option (Option String) := none
  refactoring_summary : Option (Option String) := none
  validation_history : List HistEntry := []
  reflection_history : List ReflectionNote := []
  iteration_count : Option Int := none
  human_feedback : Option (Option String) := none
  approval_status : Option String := none
  error_state : Option (Option String) := none
  file_queue : Option (List String) := none
  file_queue_index : Option Int := none
  refactoring_targets : Option (List RefactoringTarget) := none

/-- LangGraph's merge of a node's returned dict into the state: the two
history lists are concatenated (their `operator.add` reducer), all other
present keys replace the stored values. -/
def applyUpdate (s : AgentState) (u : StateUpdate) : AgentState :=
  { s with
    files := u.files.getD s.files
    current_file_path := u.current_file_path.getD s.current_file_path
    generated_code_snippet := u.generated_code_snippet.getD s.generated_code_snippet
    refactoring_summary := u.refactoring_summary.getD s.refactoring_summary
    validation_history := s.validation_history ++ u.validation_history
    reflection_history := s.reflection_history ++ u.reflection_history
    iteration_count := u.iteration_count.getD s.iteration_count
    human_feedback := u.human_feedback.getD s.human_feedback
    approval_status := u.approval_status.getD s.approval_status
    error_state := u.error_state.getD s.error_state
    file_queue := u.file_queue.getD s.file_queue
    file_queue_index := u.file_queue_index.getD s.file_queue_index
    refactoring_targets := u.refactoring_targets.getD s.refactoring_targets }

/-- `validator_node` from `src/ara/nodes/validator.py` (lines 23-68), as the
source currently stands: the body reads the candidate code only for logging
and then returns unconditionally — before any check runs — a single passing
`ValidationResult(tool_name="validator", passed=True, error_message=None,
exit_code=0)` (the `TEMPORARY: Always pass validation for debugging` block;
the real pipeline below it is inside a string literal and is dead). -/
def validator_node (_s : AgentState) : StateUpdate :=
  { validation_history :=
      [ .result { tool_name := "validator", passed := true,
                  error_message := none, exit_code := some 0 } ] }

/-- The outcome of one `_check_syntax` invocation's external parse: `none`
when CPython `compile(code, "<string>", "exec")` succeeds, `some e` with the
`SyntaxError` data when it raises. -/
structure SyntaxErrorInfo where
  lineno : Int
  msg : String
  text : Option String := none
  offset : Option Int := none
deriving DecidableEq, Repr

/-- `_check_syntax` from `src/ara/nodes/validator.py` (lines 122-161).
`pyCompile` is the external CPython compiler (as `SyntaxErrorInfo` on
failure).  The wall-clock `execution_time_ms` is modelled as 0.  Python
truthiness: `if e.text` skips the empty string, `if e.offset` skips 0. -/
def checkSyntax (pyCompile : String → Option SyntaxErrorInfo) (code : String) :
    ValidationResult :=
  match pyCompile code with
  | none =>
      { tool_name := "syntax_check", passed := true,
        exit_code := some 0, execution_time_ms := some 0 }
  | some e =>
      let base := "SyntaxError at line " ++ toString e.lineno ++ ": " ++ e.msg
      let error_msg :=
        match e.text with
        | none => base
        | some t =>
            if t = "" then base
            else
              base ++ "\n  " ++ pyStrip t ++
                (match e.offset with
                 | none => ""
                 | some off =>
                     if off = 0 then ""
                     else "\n  " ++ String.mk (List.replicate (off - 1).toNat ' ') ++ "^")
      { tool_name := "syntax_check", passed := false,
        error_message := some error_msg, exit_code := some 1,
        execution_time_ms := some 0 }

/-- Whether `pat` occurs as a contiguous run inside `l`. -/
def charsInside (pat : List Char) : List Char → Bool
  | [] => pat.isEmpty
  | x :: xs => pat.isPrefixOf (x :: xs) || charsInside pat xs

/-- Python substring test `pat in hay`. -/
def strContains (hay pat : String) : Bool := charsInside pat.toList hay.toList

/-- `_parse_reflection` from `src/ara/nodes/reflector.py` (lines 175-215):
scan the lines for section headings, accumulate summary / fix text, then
apply the fixed-offset fallbacks. -/
def parseReflection (reflection_text : String) : String × String :=
  let lines := splitChar '\n' (pyStrip reflection_text)
  let acc := lines.foldl
    (fun (acc : Option String × String × String) line =>
      let line_lower := pyLower line
      if strContains line_lower "error summary" ∨ strContains line_lower "what went wrong" then
        (some "summary", acc.2.1, acc.2.2)
      else if strContains line_lower "root cause" then
        (some "cause", acc.2.1, acc.2.2)
      else if strContains line_lower "suggested fix" ∨ strContains line_lower "fix" then
        (some "fix", acc.2.1, acc.2.2)
      else if acc.1 = some "summary" ∧ pyStrip line ≠ "" then
        (acc.1, acc.2.1 ++ pyStrip line ++ " ", acc.2.2)
      else if acc.1 = some "fix" ∧ pyStrip line ≠ "" then
        (acc.1, acc.2.1, acc.2.2 ++ pyStrip line ++ " ")
      else acc)
    (none, "", "")
  let error_summary := if acc.2.1 = "" then strTake reflection_text 200 else acc.2.1
  let suggested_fix :=
    if acc.2.2 = "" then
      if reflection_text.length > 200 then strTake (strDrop reflection_text 200) 200 else ""
    else acc.2.2
  (pyStrip error_summary, pyStrip suggested_fix)

/-- The outcome of the external language-model call `llm.invoke(messages)`:
either the response text, or the exception it raised. -/
inductive LLMOutcome where
  | ok (text : String)
  | error (msg : String)
deriving DecidableEq, Repr

/-- `reflector_node` from `src/ara/nodes/reflector.py` (lines 35-140).
`llm` is the external language-model call.  All four control paths (empty
history, no recent failures, model success, model exception) return
`iteration_count + 1`. -/
def reflector_node (llm : LLMOutcome) (s : AgentState) : StateUpdate :=
  let iteration_count := s.iteration_count
  if s.validation_history = [] then
    { iteration_count := some (iteration_count + 1),
      reflection_history :=
        [ { iteration := iteration_count,
            error_summary := "No validation results available",
            suggested_fix := "Please run validation first" } ] }
  else
    let recent_failures :=
      (realResults (lastN 5 s.validation_history)).filter (fun v => ¬ v.passed)
    if recent_failures = [] then
      { iteration_count := some (iteration_count + 1) }
    else
      match llm with
      | .ok reflection_text =>
          let parsed := parseReflection reflection_text
          let relevant_errors := recent_failures.filterMap
            (fun f => match f.error_message with
              | none => none
              | some m => if m = "" then none else some (strTake m 200))
          { iteration_count := some (iteration_count + 1),
            reflection_history :=
              [ { iteration := iteration_count,
                  error_summary := parsed.1,
                  suggested_fix := parsed.2,
                  relevant_error_lines := relevant_errors.take 5 } ],
            human_feedback := some (some reflection_text) }
      | .error msg =>
          { iteration_count := some (iteration_count + 1),
            reflection_history :=
              [ { iteration := iteration_count,
                  error_summary := "Reflection failed: " ++ msg,
                  suggested_fix := "Please review the errors manually" } ] }

/-- `_success_handler` from `src/ara/graph/builder.py` (lines 97-140): marks
the current file COMPLETED (rebuilding the `FileContext` without its error
message) and sets `approval_status` to `"PENDING"`.  Python truthiness:
`if current_file and current_file in files` rejects `None` and `""`. -/
def success_handler (s : AgentState) : StateUpdate :=
  match s.current_file_path with
  | none => { approval_status := some "PENDING" }
  | some current_file =>
      if current_file = "" then { approval_status := some "PENDING" }
      else
        match dictGet s.files current_file with
        | none => { approval_status := some "PENDING" }
        | some file_ctx =>
            let updated : FileContext :=
              { filepath := file_ctx.filepath,
                original_content := file_ctx.original_content,
                modified_content := file_ctx.modified_content,
                diff := file_ctx.diff,
                status := .COMPLETED }
            { files := some (dictSet s.files current_file updated),
              approval_status := some "PENDING" }

/-- `_escalate_handler` from `src/ara/graph/builder.py` (lines 143-167): sets
the terminal error slot and writes `approval_status = "FAILED"`. -/
def escalate_handler (s : AgentState) : StateUpdate :=
  { error_state := some (some ("Max iterations (" ++ toString s.max_iterations ++
      ") reached without passing validation")),
    approval_status := some "FAILED" }

/-- `ModuleInfo` from `src/ara/context/dependency_graph.py` (lines 17-27). -/
structure ModuleInfo where
  filepath : String
  module_name : String
  imports : List String := []
  imported_from : List String := []
  defines_functions : List String := []
  defines_classes : List String := []
  calls : List String := []
deriving DecidableEq, Repr

/-- `DependencyGraph` from `src/ara/context/dependency_graph.py` (lines
30-43): a modules dict in insertion order plus a directed edge list. -/
structure DependencyGraph where
  modules : List (String × ModuleInfo) := []
  edges : List (String × String) := []
deriving DecidableEq, Repr

/-- `pathlib.PurePath(fp).stem`: the final path component with its last
suffix removed, where a suffix needs a dot at a position strictly between
the first and the last character of the name. -/
def pathStem (fp : String) : String :=
  let name := (splitChar '/' fp).getLastD fp
  let cs := name.toList
  let dotIdxs := (List.range cs.length).filter (fun j => cs.getD j ' ' = '.')
  match dotIdxs.getLast? with
  | none => name
  | some i => if 0 < i ∧ i < cs.length - 1 then String.mk (cs.take i) else name

/-- The first pass of `build_dependency_graph`
(`src/ara/context/dependency_graph.py` lines 203-207): analyze each file and
add the successfully analyzed modules to the graph's modules dict in file
order.  `parse` is `analyze_file` (whose body is the external CPython `ast`
parser plus the `DependencyAnalyzer` visitor): it returns the per-file
`ModuleInfo`, or `none` when the file does not parse. -/
def collectModules (parse : String → String → Option ModuleInfo)
    (files : List (String × String)) : List (String × ModuleInfo) :=
  files.foldl
    (fun acc p =>
      match parse p.1 p.2 with
      | some info => acc ++ [(p.1, info)]
      | none => acc) []

/-- `build_dependency_graph` from `src/ara/context/dependency_graph.py`
(lines 187-227).  First pass: `collectModules`.  `module_names` is the
stem-to-path dict built over the module keys (later entries overwrite
earlier ones, hence the reversed lookup); the second pass adds an edge
`(filepath, module_file)` for every import whose final dotted component is
the stem of another collected file. -/
def build_dependency_graph (parse : String → String → Option ModuleInfo)
    (files : List (String × String)) : DependencyGraph :=
  let modules := collectModules parse files
  let module_names : String → Option String := fun stem =>
    dictGet (modules.map (fun m => (pathStem m.1, m.1))).reverse stem
  let edges := modules.foldl
    (fun acc m =>
      m.2.imports.foldl
        (fun acc2 imported =>
          match module_names ((splitChar '.' imported).getLastD imported) with
          | some module_file =>
              if module_file ≠ m.1 then acc2 ++ [(m.1, module_file)] else acc2
          | none => acc2) acc) []
  { modules := modules, edges := edges }

/-- The body of the inner `for neighbor in adj.get(node, [])` loop of
`topological_sort`: decrement each neighbor's in-degree, and append it to
the queue when the count reaches exactly 0. -/
def processNeighbors (neighbors : List String) (dq : (String → Int) × List String) :
    (String → Int) × List String :=
  neighbors.foldl
    (fun dq w =>
      let dNew : String → Int := fun m => if m = w then dq.1 w - 1 else dq.1 m
      if dNew w = 0 then (dNew, dq.2 ++ [w]) else (dNew, dq.2))
    dq

/-- The `while queue:` loop of `topological_sort` (Kahn's algorithm).  Each
iteration pops the queue's front into `result` and processes its adjacency
list.  The loop is written with structural fuel; `topological_sort` supplies
`|modules| + |edges| + 1`, which dominates the loop's iteration count
(every iteration removes one queue entry and enqueues at most as many
entries as in-degree units it consumes, and at most `|modules|` initial
entries plus `|edges|` in-degree units exist), so the fuel-out branch is
never taken on the arguments `topological_sort` passes. -/
def kahnLoop (adj : String → List String) :
    Nat → (String → Int) → List String → List String → List String
  | 0, _, _, result => result
  | _ + 1, _, [], result => result
  | fuel + 1, in_degree, node :: rest, result =>
      let step := processNeighbors (adj node) (in_degree, rest)
      kahnLoop adj fuel step.1 step.2 (result ++ [node])

/-- The adjacency-list / in-degree construction of `topological_sort`
(`src/ara/context/dependency_graph.py` lines 59-66): starting from empty
lists and zero counts over the module keys, each edge whose two endpoints
are both modules appends its target to the source's adjacency list and
increments the target's in-degree. -/
def buildAdjDeg (keys : List String) (edges : List (String × String)) :
    (String → List String) × (String → Int) :=
  edges.foldl
    (fun (p : (String → List String) × (String → Int)) e =>
      if e.1 ∈ keys ∧ e.2 ∈ keys then
        ((fun m => if m = e.1 then p.1 m ++ [e.2] else p.1 m),
         (fun m => if m = e.2 then p.2 m + 1 else p.2 m))
      else p)
    ((fun _ => []), (fun _ => 0))

/-- `DependencyGraph.topological_sort` from
`src/ara/context/dependency_graph.py` (lines 53-88): build the adjacency
list and in-degree table over the module keys (guarding each edge on both
endpoints being modules), run Kahn's algorithm from the in-degree-zero
nodes in insertion order, and append any leftover (cyclic) nodes in their
original order. -/
def DependencyGraph.topological_sort (g : DependencyGraph) : List String :=
  let keys := g.modules.map Prod.fst
  let built := buildAdjDeg keys g.edges
  let adj := built.1
  let in_degree := built.2
  let queue := keys.filter (fun m => in_degree m = 0)
  let result := kahnLoop adj (keys.length + g.edges.length + 1) in_degree queue []
  if result.length ≠ keys.length then
    result ++ keys.filter (fun m => m ∉ result)
  else
    result

/-- `get_refactoring_order` from `src/ara/context/dependency_graph.py`
(lines 491-518): restrict the topological order to the target files, then
append any target file not yet present, in target order. -/
def get_refactoring_order (g : DependencyGraph) (target_files : List String) :
    List String :=
  let all_ordered := g.topological_sort
  let ordered := all_ordered.filter (fun f => f ∈ target_files)
  target_files.foldl (fun acc f => if f ∈ acc then acc else acc ++ [f]) ordered

/-- Python `str()` of an optional string (`None` prints as `"None"`). -/
def pyStr : Option String → String
  | none => "None"
  | some s => s

/-- `analyzer_node` from `src/ara/nodes/analyzer.py` (lines 55-160).
`parse` is `analyze_file` (external CPython `ast`), `llm` the external
language-model call.  An empty files dict returns only an error state and
empty targets.  Otherwise the node builds the dependency graph over the
files' original contents, computes the queue with `get_refactoring_order`,
points `current_file_path` at its head, and returns the same queue fields on
both the model-success path and the exception fallback (the source parses no
targets out of the model response, so `refactoring_targets` is `[]` on both
paths). -/
def analyzer_node (parse : String → String → Option ModuleInfo)
    (llm : LLMOutcome) (s : AgentState) : StateUpdate :=
  if s.files = [] then
    { error_state := some (some "No files provided for analysis"),
      refactoring_targets := some [] }
  else
    let file_contents := s.files.map (fun p => (p.1, p.2.original_content))
    let dependency_graph := build_dependency_graph parse file_contents
    let all_files := s.files.map Prod.fst
    let file_queue := get_refactoring_order dependency_graph all_files
    let current_file := file_queue.head?
    match llm with
    | .ok analysis_text =>
        { current_file_path := some current_file,
          file_queue := some file_queue,
          file_queue_index := some 0,
          refactoring_targets := some [],
          human_feedback := some (some ("Analysis complete: " ++
            strTake analysis_text 500 ++ "...")) }
    | .error msg =>
        { current_file_path := some current_file,
          file_queue := some file_queue,
          file_queue_index := some 0,
          refactoring_targets := some [],
          human_feedback := some (some ("Analysis fallback (LLM unavailable): Processing " ++
            pyStr current_file ++ " " ++ msg)) }

/-- `generator_node` from `src/ara/nodes/generator.py` (lines 102-310).
`produce` abstracts the candidate-production strategies (LibCST transforms,
the language-model call with its block parsing, and the degraded fallback)
together with `generate_diff`: given the state it yields the triple
`(generated_code, summary, diff)`.  Every strategy path of the source ends
in the same state update — replace the current file's context with the new
candidate, mark it IN_PROGRESS, and set the snippet and summary — while the
missing-file guard returns only an error state (Python truthiness: `not
current_file` catches `None` and `""`). -/
def generator_node (produce : AgentState → String × String × String)
    (s : AgentState) : StateUpdate :=
  let missing : StateUpdate :=
    { error_state := some (some ("No file to generate: " ++ pyStr s.current_file_path)) }
  match s.current_file_path with
  | none => missing
  | some current_file =>
      if current_file = "" then missing
      else
        match dictGet s.files current_file with
        | none => missing
        | some file_ctx =>
            let out := produce s
            let updated : FileContext :=
              { filepath := file_ctx.filepath,
                original_content := file_ctx.original_content,
                modified_content := some out.1,
                diff := some out.2.2,
                status := .IN_PROGRESS }
            { files := some (dictSet s.files current_file updated),
              generated_code_snippet := some (some out.1),
              refactoring_summary := some (some out.2.1) }

/-- The nodes of the compiled LangGraph from `create_graph` in
`src/ara/graph/builder.py` (lines 20-94), plus the END sentinel. -/
inductive Node where
  | analyzer
  | generator
  | validator
  | reflector
  | success_handler
  | escalate_handler
  | END
deriving DecidableEq, Repr

/-- One transition of the compiled graph of `create_graph`
(`src/ara/graph/builder.py` lines 60-94): run the current node, merge its
update, and follow the wired edge.  The only conditional edge is
`route_after_validation` after the validator, mapping `"success"`,
`"reflect"`, `"escalate"` to the success handler, the reflector, and the
escalate handler; the two handlers are wired straight to END.  No edge of
the compiled graph consults `check_cycle_detection`, `route_next_file` or
`has_more_files` (those routers have no caller in the repository). -/
def step (parse : String → String → Option ModuleInfo)
    (produce : AgentState → String × String × String)
    (llmA llmR : LLMOutcome) : Node → AgentState → Node × AgentState
  | .analyzer, s => (.generator, applyUpdate s (analyzer_node parse llmA s))
  | .generator, s => (.validator, applyUpdate s (generator_node produce s))
  | .validator, s =>
      let merged := applyUpdate s (validator_node s)
      let route := route_after_validation merged
      (if route = "success" then .success_handler
       else if route = "reflect" then .reflector
       else .escalate_handler, merged)
  | .reflector, s => (.generator, applyUpdate s (reflector_node llmR s))
  | .success_handler, s => (.END, applyUpdate s (success_handler s))
  | .escalate_handler, s => (.END, applyUpdate s (escalate_handler s))
  | .END, s => (.END, s)

/-- Iterate `step` a fixed number of times from a node/state pair. -/
def runSteps (parse : String → String → Option ModuleInfo)
    (produce : AgentState → String × String × String)
    (llmA llmR : LLMOutcome) : Nat → Node × AgentState → Node × AgentState
  | 0, p => p
  | n + 1, p => runSteps parse produce llmA llmR n (step parse produce llmA llmR p.1 p.2)

/-- `create_initial_state` from `src/ara/state/schema.py` (lines 90-128),
without the generated workflow id. -/
def create_initial_state (refactoring_goal : String) (max_iterations : Int := 3) :
    AgentState :=
  { refactoring_goal := refactoring_goal,
    max_iterations := max_iterations,
    approval_status := "PENDING" }


/-! ### Concrete fixtures used by the claim theorems and witnesses -/

/-- A history whose last entry is a failed real result (used to exercise the
non-success routes). -/
def failedSyntaxEntry : HistEntry :=
  .result { tool_name := "syntax_check", passed := false,
            error_message := some "SyntaxError at line 1: invalid syntax",
            exit_code := some 1 }

/-- Witness state for the router claims: one failed validation outcome,
budget remaining. -/
def routerFailState : AgentState :=
  { create_initial_state "Add type hints" with
    validation_history := [failedSyntaxEntry] }

/-- `analyze_file` results for the two-file claims: both files parse, no
imports (what the CPython `ast` visitor returns on the contents below). -/
def parseTwoPlain : String → String → Option ModuleInfo := fun fp _ =>
  if fp = "f1.py" then some { filepath := "f1.py", module_name := "f1" }
  else if fp = "f2.py" then some { filepath := "f2.py", module_name := "f2" }
  else none

/-- Two plain files with no imports, in insertion order `f1.py`, `f2.py`. -/
def twoFileState : AgentState :=
  { create_initial_state "Add type hints" with
    files := [("f1.py", { filepath := "f1.py",
                          original_content := "def f(x):\n    return x\n" }),
              ("f2.py", { filepath := "f2.py",
                          original_content := "def g(x):\n    return x\n" })] }

/-- A fixed candidate-production outcome (candidate, summary, diff) standing
for the generator's strategy result on the two-file fixture. -/
def produceFixed : AgentState → String × String × String := fun _ =>
  ("def f(x: int) -> int:\n    return x\n", "Added type hints", "--- a/f1.py\n+++ b/f1.py\n")

/-- `analyze_file` results for the import scenario of the spec:
`b.py` imports module `a`, `a.py` defines it (what the CPython `ast`
visitor returns on `"import a\n..."` and a plain definition file). -/
def parseImportsA : String → String → Option ModuleInfo := fun fp _ =>
  if fp = "b.py" then
    some { filepath := "b.py", module_name := "b", imports := ["a"],
           defines_functions := ["g"], calls := ["a.f"] }
  else if fp = "a.py" then
    some { filepath := "a.py", module_name := "a", defines_functions := ["f"] }
  else none

/-- The spec scenario's file map: `b.py` (which imports `a`) first, then
`a.py`, in dict insertion order. -/
def importFiles : List (String × String) :=
  [("b.py", "import a\n\n\ndef g():\n    return a.f()\n"),
   ("a.py", "def f():\n    return 1\n")]

/-- State holding the import-scenario files. -/
def importFilesState : AgentState :=
  { create_initial_state "Add type hints" with
    files := [("b.py", { filepath := "b.py",
                         original_content := "import a\n\n\ndef g():\n    return a.f()\n" }),
              ("a.py", { filepath := "a.py",
                         original_content := "def f():\n    return 1\n" })] }

/-- The candidate with a syntax error used by the validator claim (the same
input the repository's integration test feeds the generator mock). -/
def badCandidate : String := "def foo(:\n    pass"

/-- CPython `compile` on the validator claim's inputs: the bad candidate
raises a `SyntaxError` at line 1, column 9. -/
def pyCompileFix : String → Option SyntaxErrorInfo := fun code =>
  if code = badCandidate then
    some { lineno := 1, msg := "invalid syntax", text := some "def foo(:\n", offset := some 9 }
  else none

/-- A state whose in-flight candidate is the bad candidate. -/
def badCandidateState : AgentState :=
  { create_initial_state "Add type hints" with
    files := [("test.py", { filepath := "test.py",
                            original_content := "def foo(): pass" })],
    current_file_path := some "test.py",
    generated_code_snippet := some badCandidate }

/-- A digest function standing for `hashlib.md5(...).hexdigest()`: the
oscillation claims depend only on membership of the candidate's digest in
`code_hashes`, never on particular digest values. -/
def digestId : String → String := fun s => s

/-- A state in the middle of processing `f1.py` whose just-generated
candidate's digest already occurs in `code_hashes`, with the full iteration
budget remaining. -/
def oscillatingState : AgentState :=
  { create_initial_state "Add type hints" with
    files := [("f1.py", { filepath := "f1.py",
                          original_content := "def f(x):\n    return x\n" })],
    current_file_path := some "f1.py",
    file_queue := ["f1.py"],
    generated_code_snippet := some "def f(x: int) -> int:\n    return x\n",
    code_hashes := [digestId "def f(x: int) -> int:\n    return x\n"],
    iteration_count := 0 }

/-- A state at the validator whose history already holds a failed outcome
and whose budget is exhausted, so routing escalates. -/
def exhaustedState : AgentState :=
  { create_initial_state "Add type hints" with
    files := [("f1.py", { filepath := "f1.py",
                          original_content := "def f(x):\n    return x\n" })],
    current_file_path := some "f1.py",
    validation_history := [failedSyntaxEntry],
    iteration_count := 3,
    max_iterations := 3 }

/-- The state machine's per-file retry cycle REFLECTING → GENERATING →
VALIDATING: apply the reflector, the generator and the validator updates in
sequence (the edges `reflector → generator → validator` of `create_graph`). -/
def reflectCycle (produce : AgentState → String × String × String)
    (llmR : LLMOutcome) (s : AgentState) : AgentState :=
  let s1 := applyUpdate s (reflector_node llmR s)
  let s2 := applyUpdate s1 (generator_node produce s1)
  applyUpdate s2 (validator_node s2)

/-- `N` consecutive retry cycles. -/
def reflectCycleN (produce : AgentState → String × String × String)
    (llmR : LLMOutcome) : Nat → AgentState → AgentState
  | 0, s => s
  | n + 1, s => reflectCycleN produce llmR n (reflectCycle produce llmR s)

/-- The compiled graph run for four steps from the analyzer on the two-file
fixture: analyzer → generator → validator → success handler → END. -/
def c2Run : Node × AgentState :=
  runSteps parseTwoPlain produceFixed (.ok "Analysis complete") (.ok "reflection") 4
    (.analyzer, twoFileState)

/-- The same run continued for four further steps. -/
def c2RunMore : Node × AgentState :=
  runSteps parseTwoPlain produceFixed (.ok "Analysis complete") (.ok "reflection") 8
    (.analyzer, twoFileState)

/-- One step of the compiled graph from the validator on the
budget-exhausted state. -/
def c9AfterValidator : Node × AgentState :=
  step parseTwoPlain produceFixed (.ok "a") (.ok "r") .validator exhaustedState

/-- The following step (the escalate handler). -/
def c9Final : Node × AgentState :=
  step parseTwoPlain produceFixed (.ok "a") (.ok "r") c9AfterValidator.1 c9AfterValidator.2

/-- One step of the compiled graph from the validator on the oscillating
state (candidate digest already recorded in `code_hashes`). -/
def c6AfterValidator : Node × AgentState :=
  step parseTwoPlain produceFixed (.ok "a") (.ok "r") .validator oscillatingState

/-- The same step with the digest history emptied. -/
def c6AfterValidatorNoHashes : Node × AgentState :=
  step parseTwoPlain produceFixed (.ok "a") (.ok "r") .validator
    { oscillatingState with code_hashes := [] }

/-! ### Helper lemmas -/

theorem realResults_ne_nil_iff (l : List HistEntry) :
    realResults l ≠ [] ↔ ∃ e ∈ l, e.isResult = true := by
  unfold realResults
  rw [ne_eq, List.filterMap_eq_nil_iff]
  push_neg
  constructor
  · rintro ⟨e, he, hne⟩
    cases e with
    | result v => exact ⟨_, he, rfl⟩
    | foreign => simp at hne
  · rintro ⟨e, he, hr⟩
    cases e with
    | result v => exact ⟨_, he, by simp⟩
    | foreign => exact Bool.noConfusion hr

theorem realResults_all_iff (l : List HistEntry) :
    ((realResults l).all (fun r => r.passed) = true) ↔
      ∀ e ∈ l, e.isResult = true → e.resultPassed = true := by
  unfold realResults
  rw [List.all_eq_true]
  constructor
  · intro h e he hr
    cases e with
    | result v => exact h v (List.mem_filterMap.mpr ⟨_, he, rfl⟩)
    | foreign => exact Bool.noConfusion hr
  · intro h v hv
    obtain ⟨e, he, hfe⟩ := List.mem_filterMap.mp hv
    cases e with
    | result w =>
        obtain rfl : w = v := by simpa using hfe
        exact h _ he rfl
    | foreign => simp at hfe

/-! ### Claim theorems -/

/-- Claim C1: for every state, `route_after_validation` returns `"success"`
if and only if the last 5 entries of `validation_history` contain at least
one `ValidationResult` record and every such record has `passed = true`
(malformed/foreign entries are ignored); otherwise it returns `"reflect"`
when `iteration_count < max_iterations` and `"escalate"` when
`iteration_count >= max_iterations`. -/
theorem c1_router_success_iff (s : AgentState) :
    (route_after_validation s = "success" ↔
      ((∃ e ∈ lastN 5 s.validation_history, e.isResult = true) ∧
        ∀ e ∈ lastN 5 s.validation_history, e.isResult = true → e.resultPassed = true)) ∧
    (¬ ((∃ e ∈ lastN 5 s.validation_history, e.isResult = true) ∧
        ∀ e ∈ lastN 5 s.validation_history, e.isResult = true → e.resultPassed = true) →
      route_after_validation s =
        if s.iteration_count < s.max_iterations then "reflect" else "escalate") := by
  have hiff : (s.validation_history ≠ [] ∧
      realResults (lastN 5 s.validation_history) ≠ [] ∧
      ((realResults (lastN 5 s.validation_history)).all (fun r => r.passed) = true)) ↔
      ((∃ e ∈ lastN 5 s.validation_history, e.isResult = true) ∧
        ∀ e ∈ lastN 5 s.validation_history, e.isResult = true → e.resultPassed = true) := by
    constructor
    · rintro ⟨-, h1, h2⟩
      exact ⟨(realResults_ne_nil_iff _).mp h1, (realResults_all_iff _).mp h2⟩
    · rintro ⟨h1, h2⟩
      have hne := (realResults_ne_nil_iff _).mpr h1
      refine ⟨?_, hne, (realResults_all_iff _).mpr h2⟩
      intro h0
      rw [h0] at hne
      exact hne rfl
  simp only [route_after_validation]
  by_cases hc : s.validation_history ≠ [] ∧
      realResults (lastN 5 s.validation_history) ≠ [] ∧
      ((realResults (lastN 5 s.validation_history)).all (fun r => r.passed) = true)
  · rw [if_pos hc]
    exact ⟨iff_of_true rfl (hiff.mp hc), fun hP => absurd (hiff.mp hc) hP⟩
  · rw [if_neg hc]
    refine ⟨iff_of_false ?_ (fun hP => hc (hiff.mpr hP)), fun _ => rfl⟩
    split_ifs <;> decide

/-- Witness for C1: on a state whose last validation outcome failed and
whose budget remains, the router reflects. -/
theorem c1_router_success_iff_witness :
    route_after_validation routerFailState = "reflect" :=
  ((c1_router_success_iff routerFailState).2 (by decide)).trans (by decide)

/-- Claim C10: for every state whose `generated_code_snippet` is empty or
absent, `check_cycle_detection` returns `"continue"` regardless of the
contents of `code_hashes`. -/
theorem c10_cycle_detection_ignores_empty_candidate (md5 : String → String)
    (s : AgentState)
    (h : s.generated_code_snippet = none ∨ s.generated_code_snippet = some "") :
    check_cycle_detection md5 s = "continue" := by
  rcases h with h | h <;> simp [check_cycle_detection, h]

/-- Witness for C10: an empty candidate whose (vacuous) digest history even
contains the digest of the empty string still yields `"continue"`. -/
theorem c10_cycle_detection_ignores_empty_candidate_witness :
    check_cycle_detection digestId
      { create_initial_state "g" with
        generated_code_snippet := some "", code_hashes := [digestId ""] } = "continue" :=
  c10_cycle_detection_ignores_empty_candidate digestId _ (Or.inr rfl)

theorem applyUpdate_iteration (s : AgentState) (u : StateUpdate) :
    (applyUpdate s u).iteration_count = u.iteration_count.getD s.iteration_count := rfl

theorem reflector_node_iteration (llm : LLMOutcome) (s : AgentState) :
    (reflector_node llm s).iteration_count = some (s.iteration_count + 1) := by
  cases llm <;> simp only [reflector_node] <;> split_ifs <;> rfl

theorem generator_node_iteration (produce : AgentState → String × String × String)
    (s : AgentState) : (generator_node produce s).iteration_count = none := by
  simp only [generator_node]
  split
  · rfl
  · split_ifs
    · rfl
    · split <;> rfl

theorem validator_node_iteration (s : AgentState) :
    (validator_node s).iteration_count = none := rfl

theorem reflectCycle_iteration (produce : AgentState → String × String × String)
    (llmR : LLMOutcome) (s : AgentState) :
    (reflectCycle produce llmR s).iteration_count = s.iteration_count + 1 := by
  simp only [reflectCycle]
  rw [applyUpdate_iteration, validator_node_iteration, Option.getD_none,
    applyUpdate_iteration, generator_node_iteration, Option.getD_none,
    applyUpdate_iteration, reflector_node_iteration, Option.getD_some]

/-- Claim C5: every invocation of `reflector_node` returns an update whose
`iteration_count` is the incoming count plus 1, on every control path (the
update is merged by `applyUpdate`); hence `N` consecutive REFLECTING →
GENERATING → VALIDATING cycles add exactly `N` to the counter (so starting
from 0 the counter equals `N`), and the router never returns `"reflect"`
once `iteration_count` has reached `max_iterations`. -/
theorem c5_reflector_always_increments :
    (∀ (llm : LLMOutcome) (s : AgentState),
        (applyUpdate s (reflector_node llm s)).iteration_count = s.iteration_count + 1) ∧
    (∀ (produce : AgentState → String × String × String) (llmR : LLMOutcome)
        (N : Nat) (s : AgentState),
        (reflectCycleN produce llmR N s).iteration_count = s.iteration_count + N) ∧
    (∀ s : AgentState, s.max_iterations ≤ s.iteration_count →
        route_after_validation s ≠ "reflect") := by
  refine ⟨?_, ?_, ?_⟩
  · intro llm s
    rw [applyUpdate_iteration, reflector_node_iteration, Option.getD_some]
  · intro produce llmR N
    induction N with
    | zero => intro s; simp [reflectCycleN]
    | succ n ih =>
        intro s
        rw [reflectCycleN, ih, reflectCycle_iteration]
        push_cast
        ring
  · intro s hle
    simp only [route_after_validation]
    split_ifs with h1 h2
    · decide
    · exact absurd h2 (not_lt.mpr hle)
    · decide

/-- Witness for C5: with the budget exhausted (`iteration_count = 3 =
max_iterations`) the router does not reflect. -/
theorem c5_reflector_always_increments_witness :
    route_after_validation exhaustedState ≠ "reflect" :=
  c5_reflector_always_increments.2.2 exhaustedState (by decide)

/-- Claim C2 (evaluation of the defect): on the two-file scenario the
compiled graph terminates after the first file.  Four steps reach END via
the success handler, further steps change nothing, the first file is
COMPLETED — but the second file's WorkItem is still PENDING (never FAILED),
the current-file pointer never advances past `f1.py`, and the queue index
stays 0: the workflow never reaches the second file, although the queue
contains it. -/
theorem c2_workflow_ends_after_first_file :
    c2Run.1 = Node.END ∧
    c2RunMore.1 = Node.END ∧
    c2RunMore.2 = c2Run.2 ∧
    (dictGet c2Run.2.files "f1.py").map FileContext.status = some .COMPLETED ∧
    (dictGet c2Run.2.files "f2.py").map FileContext.status = some .PENDING ∧
    c2Run.2.current_file_path = some "f1.py" ∧
    c2Run.2.file_queue = ["f1.py", "f2.py"] ∧
    c2Run.2.file_queue_index = 0 := by decide

/-- Claim C3 (evaluation of the defect): on a state whose candidate has a
syntax error, the live `validator_node` records exactly one outcome — the
always-passing `"validator"` stub, not a failed `"syntax_check"` — while
the repository's own (currently dead) `_check_syntax` would return a failed
`"syntax_check"` outcome for that candidate. -/
theorem c3_validator_bypass_on_syntax_error :
    (validator_node badCandidateState).validation_history =
      [ .result { tool_name := "validator", passed := true,
                  error_message := none, exit_code := some 0 } ] ∧
    (∀ e ∈ (validator_node badCandidateState).validation_history,
      e.resultPassed = true) ∧
    (checkSyntax pyCompileFix badCandidate).tool_name = "syntax_check" ∧
    (checkSyntax pyCompileFix badCandidate).passed = false := by decide

/-- Claim C4 (evaluation of the defect): on the spec's scenario — `b.py`
imports the module defined by `a.py`, edge `(b.py, a.py)` in the graph —
the computed order is `["b.py", "a.py"]`: the dependent `b.py` comes first,
not the dependency `a.py`, both in `get_refactoring_order` and in the
analyzer's `file_queue`. -/
theorem c4_dependency_order_puts_dependent_first :
    (build_dependency_graph parseImportsA importFiles).edges = [("b.py", "a.py")] ∧
    get_refactoring_order (build_dependency_graph parseImportsA importFiles)
        ["b.py", "a.py"] = ["b.py", "a.py"] ∧
    (analyzer_node parseImportsA (.error "rate limited") importFilesState).file_queue
        = some ["b.py", "a.py"] := by decide

/-- Claim C6 (evaluation of the defect): on a state whose just-generated
candidate's digest already occurs in `code_hashes` and with the full
iteration budget left, `check_cycle_detection` would report `"cycle"`, but
the compiled graph's step from the validator goes to the success handler —
not the escalate handler — and behaves identically with the digest history
emptied: no edge of the graph consults the oscillation check. -/
theorem c6_oscillation_does_not_escalate :
    check_cycle_detection digestId oscillatingState = "cycle" ∧
    oscillatingState.iteration_count < oscillatingState.max_iterations ∧
    c6AfterValidator.1 = Node.success_handler ∧
    c6AfterValidator.1 ≠ Node.escalate_handler ∧
    c6AfterValidatorNoHashes.1 = c6AfterValidator.1 := by decide

/-- Claim C9 (evaluation of the defect): the escalation handler — a wired
node transition of the compiled graph, reached from the validator on the
budget-exhausted state — writes `approval_status = "FAILED"`, which is not
one of the three `ApprovalStatus` values PENDING/APPROVED/REJECTED. -/
theorem c9_escalate_writes_invalid_approval_status :
    c9AfterValidator.1 = Node.escalate_handler ∧
    c9Final.1 = Node.END ∧
    c9Final.2.approval_status = "FAILED" ∧
    "FAILED" ∉ approvalStatusValues := by decide

/-- Claim C8: for every non-empty files map, `analyzer_node` returns an
update whose `file_queue` is the dependency order computed by
`get_refactoring_order` over `build_dependency_graph` of the supplied
files' original contents, whose `current_file_path` is that queue's first
element and whose queue index is 0 — on the model-success path and on the
exception fallback alike (with `refactoring_targets = []` and no error
state); for an empty files map it instead returns only an error state and
empty targets (no queue fields). -/
theorem c8_analyzer_degraded_contract (parse : String → String → Option ModuleInfo)
    (llm : LLMOutcome) (s : AgentState) :
    (s.files = [] →
      analyzer_node parse llm s =
        { error_state := some (some "No files provided for analysis"),
          refactoring_targets := some [] }) ∧
    (s.files ≠ [] →
      (analyzer_node parse llm s).file_queue =
          some (get_refactoring_order
            (build_dependency_graph parse (s.files.map (fun p => (p.1, p.2.original_content))))
            (s.files.map Prod.fst)) ∧
      (analyzer_node parse llm s).current_file_path =
          some ((get_refactoring_order
            (build_dependency_graph parse (s.files.map (fun p => (p.1, p.2.original_content))))
            (s.files.map Prod.fst)).head?) ∧
      (analyzer_node parse llm s).refactoring_targets = some [] ∧
      (analyzer_node parse llm s).file_queue_index = some 0 ∧
      (analyzer_node parse llm s).error_state = none) := by
  constructor
  · intro h
    simp only [analyzer_node, if_pos h]
  · intro h
    cases llm <;> simp [analyzer_node, if_neg h]

/-- Witness for C8: on the two-file fixture with the model call failing,
the analyzer still returns the computed queue, its head as the current
file, and empty targets; on an empty files map it returns the error
state. -/
theorem c8_analyzer_degraded_contract_witness :
    ((analyzer_node parseTwoPlain (.error "rate limited") twoFileState).file_queue
        = some ["f1.py", "f2.py"] ∧
      (analyzer_node parseTwoPlain (.error "rate limited") twoFileState).current_file_path
        = some (some "f1.py") ∧
      (analyzer_node parseTwoPlain (.error "rate limited") twoFileState).refactoring_targets
        = some []) ∧
    (analyzer_node parseTwoPlain (.error "rate limited")
        (create_initial_state "Add type hints")).error_state
      = some (some "No files provided for analysis") := by
  obtain ⟨hq, hc, ht, -, -⟩ :=
    (c8_analyzer_degraded_contract parseTwoPlain (.error "rate limited") twoFileState).2
      (by decide)
  have he :=
    (c8_analyzer_degraded_contract parseTwoPlain (.error "rate limited")
      (create_initial_state "Add type hints")).1 rfl
  refine ⟨⟨?_, ?_, ht⟩, ?_⟩
  · rw [hq]; decide
  · rw [hc]; decide
  · rw [he]

theorem collectModules_keys_sublist (parse : String → String → Option ModuleInfo)
    (files : List (String × String)) :
    ((collectModules parse files).map Prod.fst).Sublist (files.map Prod.fst) := by
  suffices h : ∀ (fs : List (String × String)) (acc : List (String × ModuleInfo)),
      ((fs.foldl (fun acc p =>
          match parse p.1 p.2 with
          | some info => acc ++ [(p.1, info)]
          | none => acc) acc).map Prod.fst).Sublist
        (acc.map Prod.fst ++ fs.map Prod.fst) by
    simpa [collectModules] using h files []
  intro fs
  induction fs with
  | nil => intro acc; simp
  | cons p ps ih =>
      intro acc
      simp only [List.foldl_cons, List.map_cons]
      cases hp : parse p.1 p.2 with
      | none =>
          refine (ih acc).trans ?_
          exact List.Sublist.append_left (List.sublist_cons_self _ _) _
      | some info =>
          refine (ih (acc ++ [(p.1, info)])).trans ?_
          simp

theorem buildAdjDeg_adj_mem (keys : List String) (edges : List (String × String)) :
    ∀ n w, w ∈ (buildAdjDeg keys edges).1 n → w ∈ keys := by
  suffices h : ∀ (es : List (String × String))
      (p : (String → List String) × (String → Int)),
      (∀ n w, w ∈ p.1 n → w ∈ keys) →
      ∀ n w, w ∈ (es.foldl (fun (p : (String → List String) × (String → Int)) e =>
          if e.1 ∈ keys ∧ e.2 ∈ keys then
            ((fun m => if m = e.1 then p.1 m ++ [e.2] else p.1 m),
             (fun m => if m = e.2 then p.2 m + 1 else p.2 m))
          else p) p).1 n → w ∈ keys by
    intro n w hw
    refine h edges _ (fun n w hw => ?_) n w hw
    simp at hw
  intro es
  induction es with
  | nil => intro p hp; exact hp
  | cons e es ih =>
      intro p hp
      simp only [List.foldl_cons]
      apply ih
      intro n w hw
      by_cases hg : e.1 ∈ keys ∧ e.2 ∈ keys
      · rw [if_pos hg] at hw
        dsimp only at hw
        by_cases hn : n = e.1
        · rw [if_pos hn] at hw
          rcases List.mem_append.mp hw with hw | hw
          · exact hp n w hw
          · rw [List.mem_singleton.mp hw]; exact hg.2
        · rw [if_neg hn] at hw
          exact hp n w hw
      · rw [if_neg hg] at hw
        exact hp n w hw

theorem processNeighbors_inv (keys base : List String) :
    ∀ (neighbors : List String), (∀ w ∈ neighbors, w ∈ keys) →
      ∀ (dq : (String → Int) × List String),
        (base ++ dq.2).Nodup →
        (∀ m ∈ base ++ dq.2, m ∈ keys) →
        (∀ m ∈ base ++ dq.2, dq.1 m ≤ 0) →
        ((base ++ (processNeighbors neighbors dq).2).Nodup ∧
         (∀ m ∈ base ++ (processNeighbors neighbors dq).2, m ∈ keys) ∧
         (∀ m ∈ base ++ (processNeighbors neighbors dq).2,
           (processNeighbors neighbors dq).1 m ≤ 0)) := by
  intro neighbors
  induction neighbors with
  | nil => intro _ dq h1 h2 h3; exact ⟨h1, h2, h3⟩
  | cons w ws ih =>
      intro hn dq h1 h2 h3
      have hws : ∀ v ∈ ws, v ∈ keys := fun v hv => hn v (List.mem_cons_of_mem _ hv)
      have hwk : w ∈ keys := hn w (List.mem_cons_self w ws)
      simp only [processNeighbors, List.foldl_cons] at *
      by_cases hz : (dq.1 w - 1 : Int) = 0
      · -- the neighbor's in-degree reached 0: it is appended to the queue
        have hwnot : w ∉ base ++ dq.2 := by
          intro hwin
          have := h3 w hwin
          omega
        rw [if_pos (by simpa using hz)]
        refine ih hws _ ?_ ?_ ?_
        · rw [← List.append_assoc]
          rw [List.nodup_append]
          exact ⟨h1, List.nodup_singleton w, List.disjoint_singleton.mpr hwnot⟩
        · intro m hm
          rw [← List.append_assoc] at hm
          rcases List.mem_append.mp hm with hm | hm
          · exact h2 m hm
          · rw [List.mem_singleton.mp hm]; exact hwk
        · intro m hm
          rw [← List.append_assoc] at hm
          rcases List.mem_append.mp hm with hm | hm
          · have hmw : m ≠ w := fun he => hwnot (he ▸ hm)
            dsimp only
            rw [if_neg hmw]
            exact h3 m hm
          · rw [List.mem_singleton.mp hm]
            dsimp only
            rw [if_pos rfl]
            omega
      · rw [if_neg (by simpa using hz)]
        refine ih hws _ h1 h2 ?_
        intro m hm
        dsimp only
        by_cases hmw : m = w
        · subst hmw
          have := h3 m hm
          rw [if_pos rfl]
          omega
        · rw [if_neg hmw]
          exact h3 m hm

theorem kahnLoop_nodup_mem (adj : String → List String) (keys : List String)
    (hadj : ∀ n w, w ∈ adj n → w ∈ keys) :
    ∀ (fuel : Nat) (in_degree : String → Int) (queue result : List String),
      (result ++ queue).Nodup →
      (∀ m ∈ result ++ queue, m ∈ keys) →
      (∀ m ∈ result ++ queue, in_degree m ≤ 0) →
      ((kahnLoop adj fuel in_degree queue result).Nodup ∧
        ∀ m ∈ kahnLoop adj fuel in_degree queue result, m ∈ keys) := by
  intro fuel
  induction fuel with
  | zero =>
      intro d q r h1 h2 _
      refine ⟨List.Nodup.sublist (List.sublist_append_left r q) h1, fun m hm => ?_⟩
      exact h2 m (List.mem_append_left q hm)
  | succ n ih =>
      intro d q r h1 h2 h3
      cases q with
      | nil =>
          refine ⟨by simpa using h1, fun m hm => ?_⟩
          exact h2 m (by simpa using hm)
      | cons node rest =>
          rw [kahnLoop]
          have hassoc : r ++ node :: rest = (r ++ [node]) ++ rest := by simp
          rw [hassoc] at h1 h2 h3
          obtain ⟨p1, p2, p3⟩ :=
            processNeighbors_inv keys (r ++ [node]) (adj node) (hadj node)
              (d, rest) h1 h2 h3
          exact ih _ _ _ p1 p2 p3

theorem topological_sort_nodup_mem (g : DependencyGraph)
    (h : (g.modules.map Prod.fst).Nodup) :
    g.topological_sort.Nodup ∧
      ∀ m ∈ g.topological_sort, m ∈ g.modules.map Prod.fst := by
  simp only [DependencyGraph.topological_sort]
  set keys := g.modules.map Prod.fst with hkeys
  set built := buildAdjDeg keys g.edges with hbuilt
  set queue := keys.filter (fun m => built.2 m = 0) with hqueue
  obtain ⟨k1, k2⟩ :=
    kahnLoop_nodup_mem built.1 keys (buildAdjDeg_adj_mem keys g.edges)
      (keys.length + g.edges.length + 1) built.2 queue []
      (by simpa [hqueue] using List.Nodup.filter _ h)
      (by
        intro m hm
        simp only [List.nil_append, hqueue] at hm
        exact (List.mem_filter.mp hm).1)
      (by
        intro m hm
        simp only [List.nil_append, hqueue] at hm
        have := (List.mem_filter.mp hm).2
        have h0 : built.2 m = 0 := by simpa using this
        omega)
  split_ifs with hlen
  · constructor
    · rw [List.nodup_append]
      refine ⟨k1, List.Nodup.filter _ h, ?_⟩
      intro a ha hafil
      have := (List.mem_filter.mp hafil).2
      simp only [decide_eq_true_eq] at this
      exact this ha
    · intro m hm
      rcases List.mem_append.mp hm with hm | hm
      · exact k2 m hm
      · exact (List.mem_filter.mp hm).1
  · exact ⟨k1, k2⟩

theorem appendMissing_nodup_iff (targets : List String) :
    ∀ acc : List String, acc.Nodup →
      ((targets.foldl (fun acc f => if f ∈ acc then acc else acc ++ [f]) acc).Nodup ∧
        ∀ x, x ∈ targets.foldl (fun acc f => if f ∈ acc then acc else acc ++ [f]) acc ↔
          x ∈ acc ∨ x ∈ targets) := by
  induction targets with
  | nil =>
      intro acc h
      refine ⟨h, fun x => ?_⟩
      simp
  | cons t ts ih =>
      intro acc h
      simp only [List.foldl_cons]
      by_cases ht : t ∈ acc
      · rw [if_pos ht]
        obtain ⟨h1, h2⟩ := ih acc h
        refine ⟨h1, fun x => ?_⟩
        rw [h2 x]
        constructor
        · rintro (hx | hx)
          · exact Or.inl hx
          · exact Or.inr (List.mem_cons_of_mem _ hx)
        · rintro (hx | hx)
          · exact Or.inl hx
          · rcases List.mem_cons.mp hx with rfl | hx
            · exact Or.inl ht
            · exact Or.inr hx
      · rw [if_neg ht]
        obtain ⟨h1, h2⟩ := ih (acc ++ [t])
          (by
            rw [List.nodup_append]
            exact ⟨h, List.nodup_singleton t, List.disjoint_singleton.mpr ht⟩)
        refine ⟨h1, fun x => ?_⟩
        rw [h2 x]
        constructor
        · rintro (hx | hx)
          · rcases List.mem_append.mp hx with hx | hx
            · exact Or.inl hx
            · obtain rfl := List.mem_singleton.mp hx
              exact Or.inr (List.mem_cons_self x ts)
          · exact Or.inr (List.mem_cons_of_mem _ hx)
        · rintro (hx | hx)
          · exact Or.inl (List.mem_append_left _ hx)
          · rcases List.mem_cons.mp hx with rfl | hx
            · exact Or.inl (List.mem_append_right _ (List.mem_singleton.mpr rfl))
            · exact Or.inr hx

/-- Claim C7: for every input file map — cyclic imports and unparseable
files included (the per-file parse results are the explicit `parse`
parameter) — the ordering pipeline returns a list containing every input
file exactly once (a permutation of the input keys, never an error); and
since the embedding of the pipeline is a pure function of the file map and
the parse results, two calls on identical input return identical lists. -/
theorem c7_order_total_permutation (parse : String → String → Option ModuleInfo)
    (files : List (String × String)) (hnd : (files.map Prod.fst).Nodup) :
    (get_refactoring_order (build_dependency_graph parse files)
        (files.map Prod.fst)).Perm (files.map Prod.fst) ∧
    get_refactoring_order (build_dependency_graph parse files) (files.map Prod.fst) =
      get_refactoring_order (build_dependency_graph parse files) (files.map Prod.fst) := by
  refine ⟨?_, rfl⟩
  have hmods : (build_dependency_graph parse files).modules = collectModules parse files :=
    rfl
  have hmodnd : ((build_dependency_graph parse files).modules.map Prod.fst).Nodup := by
    rw [hmods]
    exact List.Nodup.sublist (collectModules_keys_sublist parse files) hnd
  obtain ⟨ht1, ht2⟩ := topological_sort_nodup_mem (build_dependency_graph parse files) hmodnd
  simp only [get_refactoring_order]
  obtain ⟨h1, h2⟩ := appendMissing_nodup_iff (files.map Prod.fst)
    ((build_dependency_graph parse files).topological_sort.filter
      (fun f => f ∈ files.map Prod.fst))
    (List.Nodup.filter _ ht1)
  rw [List.perm_ext_iff_of_nodup h1 hnd]
  intro a
  rw [h2 a]
  constructor
  · rintro (ha | ha)
    · have := (List.mem_filter.mp ha).2
      simpa using this
    · exact ha
  · intro ha
    exact Or.inr ha

/-- Witness for C7: on the import-cycle-free two-file fixture (nodup keys
discharged concretely) the order is a permutation of the input keys. -/
theorem c7_order_total_permutation_witness :
    (get_refactoring_order (build_dependency_graph parseImportsA importFiles)
        (importFiles.map Prod.fst)).Perm (importFiles.map Prod.fst) :=
  (c7_order_total_permutation parseImportsA importFiles (by decide)).1

end ARA
